import Mathlib

/-!
# Verification of the seedeep-electron camera-analytics backend

Shallow embedding, in Lean 4, of the components of the
`behzad1k/seedeep-electron` backend that the verified properties concern:

* `app/core/tracking/tracker.py` — `ObjectTracker` (centroid tracker);
* `app/utils/FPSRateLimiter.py` — `FPSRateLimiter` (frame-rate governor);
* `app/core/calibration/calibrator.py` — `CameraCalibrator`;
* `app/api/http_camera_proxy.py` — `DigestAuth` and the relay generator;
* `app/services/stream_manager.py` — `CameraStream` / `StreamManager`;
* `app/core/tracking/speed_calculator.py` — `SpeedCalculator`.

Modelling conventions, used throughout:

* Python `dict`s preserve insertion order; they are embedded as association
  lists (`List (String × V)`), where assignment to a present key replaces the
  value in place, assignment to an absent key appends, and `pop` removes.
* Real-number quantities are embedded as exact rationals (`ℚ`).  Euclidean
  distances (and speeds derived from them) are represented by their
  **squares**: `x ↦ x²` is strictly monotone on the nonnegative reals, so
  every comparison the source makes between two distances, or between a
  distance and a constant bound `c`, is translated exactly by comparing the
  squares (against `c²`).  Quantities that the source derives *linearly* from
  a Euclidean norm (speeds) are likewise carried as squares.
* Wall-clock readings (`time.time()`) are passed in explicitly as rational
  timestamps.
* The random draws the source makes (`uuid.uuid4()` track ids, the random
  `cnonce`) are passed in explicitly: track ids come from a generator
  `gen : ℕ → String` sampled at an ever-increasing index held in the state,
  and the `cnonce` is a parameter.
-/

namespace Seedeep

/-! ## Association lists: the embedding of Python `dict` -/

/-- First value bound to key `k`, like `d[k]` / `d.get(k)`. -/
def alGet {V : Type} (k : String) : List (String × V) → Option V
  | [] => none
  | p :: l => if p.1 = k then some p.2 else alGet k l

/-- The keys, in insertion order, like `list(d.keys())`. -/
def alKeys {V : Type} (l : List (String × V)) : List String :=
  l.map Prod.fst

/-- Python `d[k] = f(d[k])` on a present key; the identity on an absent key. -/
def alModify {V : Type} (k : String) (f : V → V) (l : List (String × V)) :
    List (String × V) :=
  l.map (fun p => if p.1 = k then (p.1, f p.2) else p)

/-- Python `d[k] = v`: replace in place if the key is present, append otherwise. -/
def alSet {V : Type} (k : String) (v : V) (l : List (String × V)) :
    List (String × V) :=
  if k ∈ alKeys l then alModify k (fun _ => v) l
  else l ++ [(k, v)]

/-- Python `d.pop(k, None)`: drop the entry bound to `k`. -/
def alErase {V : Type} (k : String) (l : List (String × V)) :
    List (String × V) :=
  l.filter (fun p => p.1 ≠ k)

theorem alKeys_append {V : Type} (l₁ l₂ : List (String × V)) :
    alKeys (l₁ ++ l₂) = alKeys l₁ ++ alKeys l₂ := by
  simp [alKeys]

theorem alKeys_alModify {V : Type} (k : String) (f : V → V)
    (l : List (String × V)) : alKeys (alModify k f l) = alKeys l := by
  induction l with
  | nil => rfl
  | cons p l ih =>
      by_cases h : p.1 = k <;> simp [alModify, alKeys, h] <;>
        simpa [alModify, alKeys] using ih

theorem alKeys_alSet {V : Type} (k : String) (v : V) (l : List (String × V)) :
    alKeys (alSet k v l) =
      if k ∈ alKeys l then alKeys l else alKeys l ++ [k] := by
  by_cases h : k ∈ alKeys l
  · rw [alSet, if_pos h, if_pos h, alKeys_alModify]
  · rw [alSet, if_neg h, if_neg h, alKeys_append]
    rfl

theorem alKeys_alErase {V : Type} (k : String) (l : List (String × V)) :
    alKeys (alErase k l) = (alKeys l).filter (fun x => x ≠ k) := by
  induction l with
  | nil => rfl
  | cons p l ih =>
      by_cases hp : p.1 = k <;> simp [alErase, alKeys, hp] <;>
        simpa [alErase, alKeys] using ih

theorem alGet_alModify {V : Type} (k k' : String) (f : V → V)
    (l : List (String × V)) :
    alGet k' (alModify k f l) =
      if k' = k then (alGet k l).map f else alGet k' l := by
  by_cases hk : k' = k
  · subst hk
    rw [if_pos rfl]
    induction l with
    | nil => simp [alModify, alGet]
    | cons p l ih =>
        by_cases hp : p.1 = k'
        · simp [alModify, alGet, hp]
        · simp only [alModify] at ih ⊢
          simp [alGet, hp, ih]
  · rw [if_neg hk]
    have hkk : ¬ k = k' := fun h => hk h.symm
    induction l with
    | nil => simp [alModify, alGet]
    | cons p l ih =>
        by_cases hp : p.1 = k
        · have hpk' : ¬ p.1 = k' := fun h => hk (h ▸ hp)
          simp only [alModify] at ih ⊢
          simp [alGet, hp, hpk', hkk, ih]
        · by_cases hpk' : p.1 = k'
          · simp [alModify, alGet, hp, hpk', hk, hkk]
          · simp only [alModify] at ih ⊢
            simp [alGet, hp, hpk', ih]

theorem alGet_isSome_iff {V : Type} (k : String) (l : List (String × V)) :
    (alGet k l).isSome = true ↔ k ∈ alKeys l := by
  induction l with
  | nil => simp [alGet, alKeys]
  | cons p l ih =>
      by_cases hp : p.1 = k
      · simp [alGet, alKeys, hp]
      · have : ¬ k = p.1 := fun h => hp h.symm
        simp [alGet, alKeys, hp, ih, this]

theorem alGet_eq_none_of_not_mem {V : Type} {k : String}
    {l : List (String × V)} (h : k ∉ alKeys l) : alGet k l = none := by
  cases hg : alGet k l with
  | none => rfl
  | some v => exact absurd ((alGet_isSome_iff k l).1 (by simp [hg])) h

theorem alGet_append_some {V : Type} {k : String} {v : V}
    {l₁ : List (String × V)} (l₂ : List (String × V))
    (h : alGet k l₁ = some v) : alGet k (l₁ ++ l₂) = some v := by
  induction l₁ with
  | nil => simp [alGet] at h
  | cons p l ih =>
      by_cases hp : p.1 = k <;> simp_all [alGet]

theorem alGet_append_none {V : Type} {k : String}
    {l₁ : List (String × V)} (l₂ : List (String × V))
    (h : alGet k l₁ = none) : alGet k (l₁ ++ l₂) = alGet k l₂ := by
  induction l₁ with
  | nil => rfl
  | cons p l ih =>
      by_cases hp : p.1 = k <;> simp_all [alGet]

theorem alGet_alSet {V : Type} (k k' : String) (v : V) (l : List (String × V)) :
    alGet k' (alSet k v l) = if k' = k then some v else alGet k' l := by
  by_cases hmem : k ∈ alKeys l
  · obtain ⟨w, hw⟩ : ∃ w, alGet k l = some w := by
      cases hg : alGet k l with
      | none => exact absurd ((alGet_isSome_iff k l).2 hmem) (by simp [hg])
      | some w => exact ⟨w, rfl⟩
    simp [alSet, hmem, alGet_alModify, hw]
  · rw [alSet, if_neg hmem]
    by_cases hk : k' = k
    · subst hk
      rw [if_pos rfl, alGet_append_none _ (alGet_eq_none_of_not_mem hmem)]
      simp [alGet]
    · rw [if_neg hk]
      cases h : alGet k' l with
      | some w => exact alGet_append_some _ h
      | none =>
          rw [alGet_append_none _ h]
          have : ¬ k = k' := fun h => hk h.symm
          simp [alGet, this]

theorem alGet_alErase {V : Type} (k k' : String) (l : List (String × V)) :
    alGet k' (alErase k l) = if k' = k then none else alGet k' l := by
  by_cases hk : k' = k
  · subst hk
    rw [if_pos rfl]
    induction l with
    | nil => rfl
    | cons p l ih =>
        simp only [alErase, ne_eq, decide_not] at ih ⊢
        by_cases hp : p.1 = k' <;> simp [alGet, hp, ih]
  · rw [if_neg hk]
    have hkk : ¬ k = k' := fun h => hk h.symm
    induction l with
    | nil => rfl
    | cons p l ih =>
        simp only [alErase, ne_eq, decide_not] at ih ⊢
        by_cases hp : p.1 = k
        · have hpk' : ¬ p.1 = k' := fun h => hk (h ▸ hp)
          simp [alGet, hp, hpk', hkk, ih]
        · by_cases hpk' : p.1 = k' <;>
            simp [List.filter_cons, alGet, hp, hpk', hk, hkk, ih]

theorem alKeys_nodup_alSet {V : Type} (k : String) (v : V)
    {l : List (String × V)} (h : (alKeys l).Nodup) :
    (alKeys (alSet k v l)).Nodup := by
  rw [alKeys_alSet]
  by_cases hmem : k ∈ alKeys l
  · simpa [hmem] using h
  · rw [if_neg hmem]
    refine List.Nodup.append h (List.nodup_singleton k) ?_
    intro a ha hb
    simp only [List.mem_singleton] at hb
    exact hmem (hb ▸ ha)

theorem alKeys_nodup_alErase {V : Type} (k : String)
    {l : List (String × V)} (h : (alKeys l).Nodup) :
    (alKeys (alErase k l)).Nodup := by
  rw [alKeys_alErase]
  exact h.filter _

theorem alKeys_nodup_alModify {V : Type} (k : String) (f : V → V)
    {l : List (String × V)} (h : (alKeys l).Nodup) :
    (alKeys (alModify k f l)).Nodup := by
  rw [alKeys_alModify]; exact h


/-! ## The object tracker (`app/core/tracking/tracker.py`)

`TrackedObject`'s `last_seen` (a wall-clock read), `trajectory` (a capped
deque of centroids) and `distance_traveled` (a running sum of Euclidean
norms) are not referenced by any verified property and are omitted from the
record; every other field of the source dataclass is embedded.  Euclidean
distances are carried as squares (see the file header), so the tracker
stores `max_distance2 = max_distance²`. -/

/-- The `Detection` record of `app/schemas/detection.py`: box corners, confidence,
class id, label. -/
structure Detection where
  x1 : ℚ
  y1 : ℚ
  x2 : ℚ
  y2 : ℚ
  confidence : ℚ
  class_id : ℕ
  label : String
deriving DecidableEq, Inhabited

/-- The centroid of a detection box, computed in `update` as
`((x1+x2)/2, (y1+y2)/2)`. -/
def Detection.centroid (det : Detection) : ℚ × ℚ :=
  ((det.x1 + det.x2) / 2, (det.y1 + det.y2) / 2)

/-- The `TrackedObject` dataclass (see section header for omitted fields). -/
structure TrackedObject where
  track_id : String
  class_id : ℕ
  class_name : String
  bbox : ℚ × ℚ × ℚ × ℚ
  confidence : ℚ
  centroid : ℚ × ℚ
  velocity : ℚ × ℚ := (0, 0)
  age : ℕ := 1
  hits : ℕ := 1
  time_since_update : ℕ := 0
deriving DecidableEq, Inhabited

/-- The `cv2.KalmanFilter(4, 2)` configured by `_create_kalman_filter`.  Its
covariance arithmetic decides no verified property; the filter is embedded
as the initial state written at registration (`kf.statePre = [cx, cy, 0, 0]`)
plus the exact sequence of measurements handed to `kf.correct`. -/
structure KalmanFilter where
  statePre : ℚ × ℚ × ℚ × ℚ
  measurements : List (ℚ × ℚ) := []
deriving DecidableEq, Inhabited

/-- State of `ObjectTracker.__init__(max_disappeared=30, max_distance=100)`.
`nextId` and `issuedLog` are ghost fields: `nextId` is the position in the
`uuid.uuid4()` draw sequence (the draws themselves are the generator
`gen : ℕ → String` passed to every operation), and `issuedLog` records every
id `register` has returned, so that id-freshness can be stated. -/
structure ObjectTracker where
  max_disappeared : ℕ := 30
  max_distance2 : ℚ := 100 ^ 2
  objects : List (String × TrackedObject) := []
  disappeared : List (String × ℕ) := []
  kalman_filters : List (String × KalmanFilter) := []
  nextId : ℕ := 0
  issuedLog : List String := []
deriving DecidableEq, Inhabited

/-- A fresh tracker, `ObjectTracker()` with the default parameters. -/
def ObjectTracker.init : ObjectTracker := {}

/-- Python `ObjectTracker.register`: draw a fresh id, store the new object in all
three per-track maps, seed its Kalman filter.  The source returns the fresh
id; here it is recorded in the ghost `issuedLog`. -/
def ObjectTracker.register (gen : ℕ → String) (s : ObjectTracker)
    (centroid : ℚ × ℚ) (det : Detection) : ObjectTracker :=
  let track_id := gen s.nextId
  let obj : TrackedObject :=
    { track_id := track_id, class_id := det.class_id, class_name := det.label,
      bbox := (det.x1, det.y1, det.x2, det.y2),
      confidence := det.confidence, centroid := centroid }
  { s with
    objects := alSet track_id obj s.objects,
    disappeared := alSet track_id 0 s.disappeared,
    kalman_filters :=
      alSet track_id { statePre := (centroid.1, centroid.2, 0, 0) }
        s.kalman_filters,
    nextId := s.nextId + 1,
    issuedLog := s.issuedLog ++ [track_id] }

/-- Python `ObjectTracker.deregister`: pop the id from all three maps. -/
def ObjectTracker.deregister (s : ObjectTracker) (track_id : String) :
    ObjectTracker :=
  { s with
    objects := alErase track_id s.objects,
    disappeared := alErase track_id s.disappeared,
    kalman_filters := alErase track_id s.kalman_filters }

/-- One iteration of the source's disappeared-bookkeeping loop for one id,
increments only: `disappeared[tid] += 1`, `objects[tid].time_since_update += 1`,
`objects[tid].age += 1`. -/
def ObjectTracker.bumpMissed (s : ObjectTracker) (track_id : String) :
    ObjectTracker :=
  { s with
    disappeared := alModify track_id (fun d => d + 1) s.disappeared,
    objects := alModify track_id (fun o =>
      { o with time_since_update := o.time_since_update + 1,
               age := o.age + 1 }) s.objects }

/-- The deregistration check that closes the loop body:
`if self.disappeared[track_id] > self.max_disappeared: self.deregister(...)`.
(On an id absent from `disappeared` the `getD 0` default makes the check
false; the source would have raised on the increment already — the loops
only pass present ids.) -/
def ObjectTracker.markDisappeared (s : ObjectTracker) (track_id : String) :
    ObjectTracker :=
  if (s.bumpMissed track_id).max_disappeared <
      (alGet track_id (s.bumpMissed track_id).disappeared).getD 0 then
    (s.bumpMissed track_id).deregister track_id
  else s.bumpMissed track_id

/-- Squared Euclidean distance: the embedding of
`np.linalg.norm(p - q)` (compared only squared, see file header). -/
def dist2 (p q : ℚ × ℚ) : ℚ :=
  (p.1 - q.1) ^ 2 + (p.2 - q.2) ^ 2

/-- Minimum of a list of rationals (`D.min(axis=1)` per row). -/
def listMinQ : List ℚ → ℚ
  | [] => 0
  | [x] => x
  | x :: y :: l => min x (listMinQ (y :: l))

/-- Index of the first occurrence of the minimum (`np.argmin` per row). -/
def listArgminQ : List ℚ → ℕ
  | [] => 0
  | [_] => 0
  | x :: y :: l => if x ≤ listMinQ (y :: l) then 0 else listArgminQ (y :: l) + 1

/-- Strict lexicographic order on row indices by (minimum distance, index):
the order in which `rows = D.min(axis=1).argsort()` hands rows to the greedy
loop, ties broken by enumeration order. -/
def idxLt (keys : List ℚ) (i j : ℕ) : Prop :=
  keys.getD i 0 < keys.getD j 0 ∨ (keys.getD i 0 = keys.getD j 0 ∧ i < j)

instance (keys : List ℚ) (i j : ℕ) : Decidable (idxLt keys i j) := by
  unfold idxLt; infer_instance

/-- Insert an index into an index list sorted by `idxLt`. -/
def insertIdx (keys : List ℚ) (i : ℕ) : List ℕ → List ℕ
  | [] => [i]
  | j :: js =>
      if idxLt keys i j then i :: j :: js else j :: insertIdx keys i js

/-- The `argsort` of `keys`, ties broken by index: the embedding of
`D.min(axis=1).argsort()` (NumPy's argsort on the row minima; the tie-break
by enumeration order is the documented behaviour the spec pins down). -/
def sortIdx (keys : List ℚ) : List ℕ :=
  (List.range keys.length).foldr (insertIdx keys) []

/-- The greedy selection loop of `ObjectTracker.update` (lines 118–126,
selection only): walk the rows in argsort order; for each row, its candidate
column is that row's argmin; skip if either side is already used or the
distance exceeds the bound, otherwise take the pair and mark both sides
used.  The in-loop object mutations of the source read none of the loop's
decisions and are applied afterwards (`applyMatch`). -/
def greedyPairs (D : ℕ → ℕ → ℚ) (maxd2 : ℚ) (cols : ℕ → ℕ) :
    List ℕ → List ℕ → List ℕ → List (ℕ × ℕ)
  | [], _, _ => []
  | row :: rest, usedR, usedC =>
      let col := cols row
      if row ∈ usedR ∨ col ∈ usedC then
        greedyPairs D maxd2 cols rest usedR usedC
      else if maxd2 < D row col then
        greedyPairs D maxd2 cols rest usedR usedC
      else
        (row, col) :: greedyPairs D maxd2 cols rest (row :: usedR) (col :: usedC)

/-- One row of the pairwise (squared) distance matrix `D`. -/
def distRow (oc : ℚ × ℚ) (ics : List (ℚ × ℚ)) : List ℚ :=
  ics.map (dist2 oc)

/-- Row minima `D.min(axis=1)`: per existing object, its (squared) distance to the
nearest detection. -/
def minKeys (ocs ics : List (ℚ × ℚ)) : List ℚ :=
  ocs.map (fun oc => listMinQ (distRow oc ics))

/-- Row argmins `D.argmin(axis=1)`: per row, the first column attaining the row minimum. -/
def argminCols (ocs ics : List (ℚ × ℚ)) (r : ℕ) : ℕ :=
  listArgminQ (distRow (ocs.getD r (0, 0)) ics)

/-- The matched (row, col) pairs `ObjectTracker.update` assigns, in
assignment order. -/
def matchPairs (ocs ics : List (ℚ × ℚ)) (maxd2 : ℚ) : List (ℕ × ℕ) :=
  greedyPairs (fun r c => dist2 (ocs.getD r (0, 0)) (ics.getD c (0, 0)))
    maxd2 (argminCols ocs ics) (sortIdx (minKeys ocs ics)) [] []

/-- The per-pair mutation block of the matched loop (lines 128–162):
velocity from the old centroid, then centroid/bbox/confidence/hits/
time-since-update/age, the Kalman `correct` measurement, and
`disappeared[tid] = 0`.  The `getD` defaults never fire: every row index is
below the object count and every column index below the detection count. -/
def ObjectTracker.applyMatch (s : ObjectTracker) (detections : List Detection)
    (input_centroids : List (ℚ × ℚ)) (object_ids : List String)
    (rc : ℕ × ℕ) : ObjectTracker :=
  let track_id := object_ids.getD rc.1 ""
  let det := detections.getD rc.2 default
  let new_centroid := input_centroids.getD rc.2 (0, 0)
  { s with
    objects := alModify track_id (fun o =>
      { o with
        velocity := (new_centroid.1 - o.centroid.1,
                     new_centroid.2 - o.centroid.2),
        centroid := new_centroid,
        bbox := (det.x1, det.y1, det.x2, det.y2),
        confidence := det.confidence,
        hits := o.hits + 1,
        time_since_update := 0,
        age := o.age + 1 }) s.objects,
    kalman_filters := alModify track_id (fun kf =>
      { kf with measurements := kf.measurements ++ [new_centroid] })
      s.kalman_filters,
    disappeared := alSet track_id 0 s.disappeared }

/-- Python `ObjectTracker.update`.  The unmatched-row and unmatched-column loops
iterate CPython sets of small naturals, whose iteration order is ascending;
they are embedded as filtered ascending ranges. -/
def ObjectTracker.update (gen : ℕ → String) (s : ObjectTracker)
    (detections : List Detection) : ObjectTracker :=
  if detections = [] then
    (alKeys s.disappeared).foldl ObjectTracker.markDisappeared s
  else
    let input_centroids := detections.map Detection.centroid
    if s.objects = [] then
      (detections.zip input_centroids).foldl
        (fun st dc => st.register gen dc.2 dc.1) s
    else
      let object_ids := alKeys s.objects
      let object_centroids := object_ids.map (fun oid =>
        ((alGet oid s.objects).map TrackedObject.centroid).getD (0, 0))
      let pairs := matchPairs object_centroids input_centroids s.max_distance2
      let s1 := pairs.foldl (fun st rc =>
        st.applyMatch detections input_centroids object_ids rc) s
      let usedRows := pairs.map Prod.fst
      let s2 := ((List.range object_centroids.length).filter
          (fun r => r ∉ usedRows)).foldl
        (fun st row => st.markDisappeared (object_ids.getD row "")) s1
      let usedCols := pairs.map Prod.snd
      ((List.range input_centroids.length).filter
          (fun c => c ∉ usedCols)).foldl
        (fun st col => st.register gen (input_centroids.getD col (0, 0))
          (detections.getD col default)) s2


/-! ## Properties of the matching machinery -/

theorem insertIdx_perm (keys : List ℚ) (i : ℕ) (l : List ℕ) :
    (insertIdx keys i l).Perm (i :: l) := by
  induction l with
  | nil => simp [insertIdx]
  | cons j js ih =>
      by_cases h : idxLt keys i j
      · simp [insertIdx, h]
      · simp only [insertIdx, if_neg h]
        exact (ih.cons j).trans (List.Perm.swap i j js)

theorem sortIdx_perm (keys : List ℚ) :
    (sortIdx keys).Perm (List.range keys.length) := by
  have h : ∀ l : List ℕ, (l.foldr (insertIdx keys) []).Perm l := by
    intro l
    induction l with
    | nil => exact List.Perm.refl _
    | cons a l ih =>
        exact (insertIdx_perm keys a (l.foldr (insertIdx keys) [])).trans
          (ih.cons a)
  exact h _

/-- Weak lexicographic order on row indices by (key value, index). -/
def idxLe (keys : List ℚ) (i j : ℕ) : Prop :=
  keys.getD i 0 < keys.getD j 0 ∨ (keys.getD i 0 = keys.getD j 0 ∧ i ≤ j)

theorem idxLe_of_idxLt {keys : List ℚ} {i j : ℕ} (h : idxLt keys i j) :
    idxLe keys i j := by
  rcases h with h | ⟨h1, h2⟩
  · exact Or.inl h
  · exact Or.inr ⟨h1, Nat.le_of_lt h2⟩

theorem idxLe_of_not_idxLt {keys : List ℚ} {i j : ℕ} (h : ¬ idxLt keys i j) :
    idxLe keys j i := by
  unfold idxLt at h
  push_neg at h
  obtain ⟨h1, h2⟩ := h
  rcases lt_or_eq_of_le h1 with hlt | heq
  · exact Or.inl hlt
  · exact Or.inr ⟨heq, h2 heq.symm⟩

theorem idxLe_trans {keys : List ℚ} {i j k : ℕ}
    (hij : idxLe keys i j) (hjk : idxLe keys j k) : idxLe keys i k := by
  rcases hij with h | ⟨h1, h2⟩ <;> rcases hjk with h' | ⟨h1', h2'⟩
  · exact Or.inl (h.trans h')
  · exact Or.inl (h1' ▸ h)
  · exact Or.inl (h1 ▸ h')
  · exact Or.inr ⟨h1.trans h1', h2.trans h2'⟩

theorem pairwise_insertIdx (keys : List ℚ) (i : ℕ) {l : List ℕ}
    (h : l.Pairwise (idxLe keys)) :
    (insertIdx keys i l).Pairwise (idxLe keys) := by
  induction l with
  | nil => simp [insertIdx]
  | cons j js ih =>
      rcases List.pairwise_cons.1 h with ⟨hj, hjs⟩
      by_cases hc : idxLt keys i j
      · simp only [insertIdx, if_pos hc]
        refine List.pairwise_cons.2 ⟨?_, h⟩
        intro x hx
        rcases List.mem_cons.1 hx with rfl | hx
        · exact idxLe_of_idxLt hc
        · exact idxLe_trans (idxLe_of_idxLt hc) (hj x hx)
      · simp only [insertIdx, if_neg hc]
        refine List.pairwise_cons.2 ⟨?_, ih hjs⟩
        intro x hx
        rcases List.mem_cons.1 ((insertIdx_perm keys i js).mem_iff.1 hx) with
          rfl | hx'
        · exact idxLe_of_not_idxLt hc
        · exact hj x hx'

theorem sortIdx_pairwise (keys : List ℚ) :
    (sortIdx keys).Pairwise (idxLe keys) := by
  have h : ∀ l : List ℕ, (l.foldr (insertIdx keys) []).Pairwise (idxLe keys) := by
    intro l
    induction l with
    | nil => simp
    | cons a l ih => exact pairwise_insertIdx keys a ih
  exact h _

theorem listMinQ_le_of_mem : ∀ (l : List ℚ), ∀ x ∈ l, listMinQ l ≤ x := by
  intro l
  induction l with
  | nil => intro x hx; cases hx
  | cons a l ih =>
      intro x hx
      cases l with
      | nil =>
          rcases List.mem_singleton.1 hx with rfl
          exact le_refl _
      | cons b m =>
          rcases List.mem_cons.1 hx with rfl | hx'
          · exact min_le_left _ _
          · exact le_trans (min_le_right _ _) (ih x hx')

theorem listArgminQ_lt_length : ∀ (l : List ℚ), l ≠ [] →
    listArgminQ l < l.length := by
  intro l
  induction l with
  | nil => intro h; exact absurd rfl h
  | cons a l ih =>
      intro _
      cases l with
      | nil => simp [listArgminQ]
      | cons b m =>
          by_cases hc : a ≤ listMinQ (b :: m)
          · simp [listArgminQ, hc]
          · simp only [listArgminQ, if_neg hc, List.length_cons]
            exact Nat.succ_lt_succ (ih (List.cons_ne_nil b m))

theorem getD_listArgminQ : ∀ (l : List ℚ), l ≠ [] →
    l.getD (listArgminQ l) 0 = listMinQ l := by
  intro l
  induction l with
  | nil => intro h; exact absurd rfl h
  | cons a l ih =>
      intro _
      cases l with
      | nil => rfl
      | cons b m =>
          by_cases hc : a ≤ listMinQ (b :: m)
          · simp only [listArgminQ, if_pos hc, List.getD]
            exact (min_eq_left hc).symm
          · simp only [listArgminQ, if_neg hc, listMinQ]
            have : (a :: b :: m).getD (listArgminQ (b :: m) + 1) 0 =
                (b :: m).getD (listArgminQ (b :: m)) 0 := rfl
            rw [this, ih (List.cons_ne_nil b m)]
            exact (min_eq_right (le_of_lt (not_le.1 hc))).symm

theorem greedyPairs_sublist (D : ℕ → ℕ → ℚ) (maxd2 : ℚ) (cols : ℕ → ℕ) :
    ∀ (rows usedR usedC : List ℕ),
      ((greedyPairs D maxd2 cols rows usedR usedC).map Prod.fst).Sublist
        rows := by
  intro rows
  induction rows with
  | nil => intro _ _; simp [greedyPairs]
  | cons row rest ih =>
      intro usedR usedC
      by_cases h1 : row ∈ usedR ∨ cols row ∈ usedC
      · simp only [greedyPairs, if_pos h1]
        exact (ih usedR usedC).cons row
      · by_cases h2 : maxd2 < D row (cols row)
        · simp only [greedyPairs, if_neg h1, if_pos h2]
          exact (ih usedR usedC).cons row
        · simp only [greedyPairs, if_neg h1, if_neg h2, List.map_cons]
          exact (ih (row :: usedR) (cols row :: usedC)).cons₂ row

theorem greedyPairs_dist_le (D : ℕ → ℕ → ℚ) (maxd2 : ℚ) (cols : ℕ → ℕ) :
    ∀ (rows usedR usedC : List ℕ),
      ∀ rc ∈ greedyPairs D maxd2 cols rows usedR usedC,
        D rc.1 rc.2 ≤ maxd2 := by
  intro rows
  induction rows with
  | nil => intro _ _ rc hrc; simp [greedyPairs] at hrc
  | cons row rest ih =>
      intro usedR usedC rc hrc
      by_cases h1 : row ∈ usedR ∨ cols row ∈ usedC
      · exact ih usedR usedC rc (by simpa [greedyPairs, if_pos h1] using hrc)
      · by_cases h2 : maxd2 < D row (cols row)
        · exact ih usedR usedC rc
            (by simpa [greedyPairs, if_neg h1, if_pos h2] using hrc)
        · simp only [greedyPairs, if_neg h1, if_neg h2, List.mem_cons] at hrc
          rcases hrc with rfl | hrc
          · exact not_lt.1 h2
          · exact ih (row :: usedR) (cols row :: usedC) rc hrc

theorem greedyPairs_col (D : ℕ → ℕ → ℚ) (maxd2 : ℚ) (cols : ℕ → ℕ) :
    ∀ (rows usedR usedC : List ℕ),
      ∀ rc ∈ greedyPairs D maxd2 cols rows usedR usedC,
        rc.2 = cols rc.1 := by
  intro rows
  induction rows with
  | nil => intro _ _ rc hrc; simp [greedyPairs] at hrc
  | cons row rest ih =>
      intro usedR usedC rc hrc
      by_cases h1 : row ∈ usedR ∨ cols row ∈ usedC
      · exact ih usedR usedC rc (by simpa [greedyPairs, if_pos h1] using hrc)
      · by_cases h2 : maxd2 < D row (cols row)
        · exact ih usedR usedC rc
            (by simpa [greedyPairs, if_neg h1, if_pos h2] using hrc)
        · simp only [greedyPairs, if_neg h1, if_neg h2, List.mem_cons] at hrc
          rcases hrc with rfl | hrc
          · rfl
          · exact ih (row :: usedR) (cols row :: usedC) rc hrc

theorem greedyPairs_not_used (D : ℕ → ℕ → ℚ) (maxd2 : ℚ) (cols : ℕ → ℕ) :
    ∀ (rows usedR usedC : List ℕ),
      ∀ rc ∈ greedyPairs D maxd2 cols rows usedR usedC,
        rc.1 ∉ usedR ∧ rc.2 ∉ usedC := by
  intro rows
  induction rows with
  | nil => intro _ _ rc hrc; simp [greedyPairs] at hrc
  | cons row rest ih =>
      intro usedR usedC rc hrc
      by_cases h1 : row ∈ usedR ∨ cols row ∈ usedC
      · exact ih usedR usedC rc (by simpa [greedyPairs, if_pos h1] using hrc)
      · by_cases h2 : maxd2 < D row (cols row)
        · exact ih usedR usedC rc
            (by simpa [greedyPairs, if_neg h1, if_pos h2] using hrc)
        · simp only [greedyPairs, if_neg h1, if_neg h2, List.mem_cons] at hrc
          push_neg at h1
          rcases hrc with rfl | hrc
          · exact ⟨h1.1, h1.2⟩
          · have := ih (row :: usedR) (cols row :: usedC) rc hrc
            exact ⟨fun hm => this.1 (List.mem_cons_of_mem _ hm),
                   fun hm => this.2 (List.mem_cons_of_mem _ hm)⟩

theorem greedyPairs_fst_nodup (D : ℕ → ℕ → ℚ) (maxd2 : ℚ) (cols : ℕ → ℕ) :
    ∀ (rows usedR usedC : List ℕ),
      ((greedyPairs D maxd2 cols rows usedR usedC).map Prod.fst).Nodup := by
  intro rows
  induction rows with
  | nil => intro _ _; simp [greedyPairs]
  | cons row rest ih =>
      intro usedR usedC
      by_cases h1 : row ∈ usedR ∨ cols row ∈ usedC
      · simpa [greedyPairs, if_pos h1] using ih usedR usedC
      · by_cases h2 : maxd2 < D row (cols row)
        · simpa [greedyPairs, if_neg h1, if_pos h2] using ih usedR usedC
        · simp only [greedyPairs, if_neg h1, if_neg h2, List.map_cons,
            List.nodup_cons]
          refine ⟨?_, ih (row :: usedR) (cols row :: usedC)⟩
          intro hmem
          rcases List.mem_map.1 hmem with ⟨rc, hrc, hfst⟩
          have := (greedyPairs_not_used D maxd2 cols rest (row :: usedR)
            (cols row :: usedC) rc hrc).1
          exact this (hfst ▸ List.mem_cons_self row usedR)

theorem greedyPairs_snd_nodup (D : ℕ → ℕ → ℚ) (maxd2 : ℚ) (cols : ℕ → ℕ) :
    ∀ (rows usedR usedC : List ℕ),
      ((greedyPairs D maxd2 cols rows usedR usedC).map Prod.snd).Nodup := by
  intro rows
  induction rows with
  | nil => intro _ _; simp [greedyPairs]
  | cons row rest ih =>
      intro usedR usedC
      by_cases h1 : row ∈ usedR ∨ cols row ∈ usedC
      · simpa [greedyPairs, if_pos h1] using ih usedR usedC
      · by_cases h2 : maxd2 < D row (cols row)
        · simpa [greedyPairs, if_neg h1, if_pos h2] using ih usedR usedC
        · simp only [greedyPairs, if_neg h1, if_neg h2, List.map_cons,
            List.nodup_cons]
          refine ⟨?_, ih (row :: usedR) (cols row :: usedC)⟩
          intro hmem
          rcases List.mem_map.1 hmem with ⟨rc, hrc, hsnd⟩
          have := (greedyPairs_not_used D maxd2 cols rest (row :: usedR)
            (cols row :: usedC) rc hrc).2
          exact this (hsnd ▸ List.mem_cons_self (cols row) usedC)


/-! ## C2: the greedy nearest-neighbour matching -/

/-- C2: with live objects and a non-empty detection list, `update` matches
greedily: the rows are walked in ascending order of their minimum (squared)
centroid distance to any detection with ties broken by enumeration order
(`sortIdx` is a permutation of the row range, sorted by the lexicographic
key (row minimum, row index), and the assigned rows appear as a sublist of
that order); a pair is assigned only if neither side is already matched
(each row and each column occurs at most once) and only to the row's argmin
column; and no pair farther than `max_distance` (squared: `max_distance2`,
default `100²`) is ever assigned. -/
theorem C2_greedy_matching (ocs ics : List (ℚ × ℚ)) (maxd2 : ℚ)
    (hocs : ocs ≠ []) (hics : ics ≠ []) :
    ObjectTracker.init.max_distance2 = 100 ^ 2
    ∧ (sortIdx (minKeys ocs ics)).Perm (List.range ocs.length)
    ∧ (sortIdx (minKeys ocs ics)).Pairwise (idxLe (minKeys ocs ics))
    ∧ ((matchPairs ocs ics maxd2).map Prod.fst).Sublist
        (sortIdx (minKeys ocs ics))
    ∧ (∀ rc ∈ matchPairs ocs ics maxd2,
        dist2 (ocs.getD rc.1 (0, 0)) (ics.getD rc.2 (0, 0)) ≤ maxd2)
    ∧ ((matchPairs ocs ics maxd2).map Prod.fst).Nodup
    ∧ ((matchPairs ocs ics maxd2).map Prod.snd).Nodup
    ∧ (∀ rc ∈ matchPairs ocs ics maxd2, rc.2 = argminCols ocs ics rc.1) := by
  refine ⟨rfl, ?_, sortIdx_pairwise _, greedyPairs_sublist _ _ _ _ _ _,
    greedyPairs_dist_le _ _ _ _ _ _, greedyPairs_fst_nodup _ _ _ _ _ _,
    greedyPairs_snd_nodup _ _ _ _ _ _, greedyPairs_col _ _ _ _ _ _⟩
  have h := sortIdx_perm (minKeys ocs ics)
  rwa [show (minKeys ocs ics).length = ocs.length by simp [minKeys]] at h

/-- Witness for C2 on a concrete instance: objects at (0,0) and (10,0),
detections at (11,0) and (1,0); both rows tie at squared distance 1, row 0
goes first and takes column 1. -/
theorem C2_greedy_matching_witness :
    matchPairs [((0 : ℚ), (0 : ℚ)), (10, 0)] [(11, 0), (1, 0)] (100 ^ 2) =
      [(0, 1), (1, 0)]
    ∧ (∀ rc ∈ matchPairs [((0 : ℚ), (0 : ℚ)), (10, 0)] [(11, 0), (1, 0)]
          (100 ^ 2),
        dist2 ([((0 : ℚ), (0 : ℚ)), (10, 0)].getD rc.1 (0, 0))
          ([((11 : ℚ), (0 : ℚ)), (1, 0)].getD rc.2 (0, 0)) ≤ 100 ^ 2) :=
  ⟨by norm_num [matchPairs, greedyPairs, sortIdx, insertIdx, idxLt, minKeys,
      distRow, dist2, listMinQ, listArgminQ, argminCols, List.range_succ],
   (C2_greedy_matching [((0 : ℚ), (0 : ℚ)), (10, 0)] [(11, 0), (1, 0)]
      (100 ^ 2) (by simp) (by simp)).2.2.2.2.1⟩


/-! ## C1: `update([])` bookkeeping -/

theorem markDisappeared_get_other (s : ObjectTracker) (tid id : String)
    (h : ¬ id = tid) :
    alGet id (s.markDisappeared tid).objects = alGet id s.objects
    ∧ alGet id (s.markDisappeared tid).disappeared = alGet id s.disappeared
    ∧ alGet id (s.markDisappeared tid).kalman_filters =
        alGet id s.kalman_filters := by
  unfold ObjectTracker.markDisappeared
  split <;> refine ⟨?_, ?_, ?_⟩ <;>
    simp [ObjectTracker.deregister, ObjectTracker.bumpMissed, alGet_alErase,
      alGet_alModify, h]

theorem markDisappeared_params (s : ObjectTracker) (tid : String) :
    (s.markDisappeared tid).max_disappeared = s.max_disappeared
    ∧ (s.markDisappeared tid).max_distance2 = s.max_distance2
    ∧ (s.markDisappeared tid).nextId = s.nextId
    ∧ (s.markDisappeared tid).issuedLog = s.issuedLog := by
  unfold ObjectTracker.markDisappeared
  split <;> simp [ObjectTracker.deregister, ObjectTracker.bumpMissed]

theorem markDisappeared_get_self (s : ObjectTracker) (tid : String) {d : ℕ}
    (hd : alGet tid s.disappeared = some d) :
    (s.max_disappeared < d + 1 →
       alGet tid (s.markDisappeared tid).objects = none
       ∧ alGet tid (s.markDisappeared tid).disappeared = none
       ∧ alGet tid (s.markDisappeared tid).kalman_filters = none)
    ∧ (¬ s.max_disappeared < d + 1 →
       alGet tid (s.markDisappeared tid).objects =
         (alGet tid s.objects).map (fun o =>
           { o with time_since_update := o.time_since_update + 1,
                    age := o.age + 1 })
       ∧ alGet tid (s.markDisappeared tid).disappeared = some (d + 1)
       ∧ alGet tid (s.markDisappeared tid).kalman_filters =
           alGet tid s.kalman_filters) := by
  have hscrut : alGet tid (s.bumpMissed tid).disappeared = some (d + 1) := by
    show alGet tid (alModify tid (fun x => x + 1) s.disappeared) = some (d + 1)
    rw [alGet_alModify]
    simp [hd]
  have hmax : (s.bumpMissed tid).max_disappeared = s.max_disappeared := rfl
  constructor
  · intro hgt
    unfold ObjectTracker.markDisappeared
    rw [hscrut, hmax]
    simp only [Option.getD_some, if_pos hgt]
    refine ⟨?_, ?_, ?_⟩ <;>
      simp [ObjectTracker.deregister, alGet_alErase]
  · intro hle
    unfold ObjectTracker.markDisappeared
    rw [hscrut, hmax]
    simp only [Option.getD_some, if_neg hle]
    refine ⟨?_, hscrut, rfl⟩
    show alGet tid (alModify tid (fun o =>
        { o with time_since_update := o.time_since_update + 1,
                 age := o.age + 1 }) s.objects) =
      (alGet tid s.objects).map (fun o =>
        { o with time_since_update := o.time_since_update + 1,
                 age := o.age + 1 })
    rw [alGet_alModify]
    simp

theorem foldl_markDisappeared_not_mem (L : List String) :
    ∀ (s : ObjectTracker) (id : String), id ∉ L →
      alGet id (L.foldl ObjectTracker.markDisappeared s).objects =
        alGet id s.objects
      ∧ alGet id (L.foldl ObjectTracker.markDisappeared s).disappeared =
          alGet id s.disappeared
      ∧ alGet id (L.foldl ObjectTracker.markDisappeared s).kalman_filters =
          alGet id s.kalman_filters := by
  induction L with
  | nil => intro s id _; exact ⟨rfl, rfl, rfl⟩
  | cons tid rest ih =>
      intro s id hmem
      have h1 : ¬ id = tid := fun h => hmem (h ▸ List.mem_cons_self tid rest)
      have h2 : id ∉ rest := fun h => hmem (List.mem_cons_of_mem tid h)
      have hstep := markDisappeared_get_other s tid id h1
      have hrec := ih (s.markDisappeared tid) id h2
      exact ⟨hrec.1.trans hstep.1, hrec.2.1.trans hstep.2.1,
        hrec.2.2.trans hstep.2.2⟩

theorem foldl_markDisappeared_params (L : List String) :
    ∀ (s : ObjectTracker),
      (L.foldl ObjectTracker.markDisappeared s).max_disappeared =
        s.max_disappeared := by
  induction L with
  | nil => intro s; rfl
  | cons tid rest ih =>
      intro s
      exact (ih (s.markDisappeared tid)).trans (markDisappeared_params s tid).1

theorem foldl_markDisappeared_get (L : List String) :
    ∀ (s : ObjectTracker), L.Nodup →
      ∀ id ∈ L, ∀ d : ℕ, alGet id s.disappeared = some d →
      (s.max_disappeared < d + 1 →
         alGet id (L.foldl ObjectTracker.markDisappeared s).objects = none
         ∧ alGet id (L.foldl ObjectTracker.markDisappeared s).disappeared =
             none
         ∧ alGet id
             (L.foldl ObjectTracker.markDisappeared s).kalman_filters = none)
      ∧ (¬ s.max_disappeared < d + 1 →
         alGet id (L.foldl ObjectTracker.markDisappeared s).objects =
           (alGet id s.objects).map (fun o =>
             { o with time_since_update := o.time_since_update + 1,
                      age := o.age + 1 })
         ∧ alGet id (L.foldl ObjectTracker.markDisappeared s).disappeared =
             some (d + 1)
         ∧ alGet id
             (L.foldl ObjectTracker.markDisappeared s).kalman_filters =
             alGet id s.kalman_filters) := by
  induction L with
  | nil => intro s _ id hid; cases hid
  | cons tid rest ih =>
      intro s hnd id hid d hd
      rcases List.nodup_cons.1 hnd with ⟨htid, hndr⟩
      rcases List.mem_cons.1 hid with rfl | hidr
      · -- the id is processed by the head step; the tail never touches it
        have hself := markDisappeared_get_self s id hd
        have hrest := foldl_markDisappeared_not_mem rest
          (s.markDisappeared id) id htid
        constructor
        · intro hgt
          have h := hself.1 hgt
          exact ⟨hrest.1.trans h.1, hrest.2.1.trans h.2.1,
            hrest.2.2.trans h.2.2⟩
        · intro hle
          have h := hself.2 hle
          exact ⟨hrest.1.trans h.1, hrest.2.1.trans h.2.1,
            hrest.2.2.trans h.2.2⟩
      · -- the head step touches a different id
        have hne : ¬ id = tid := fun h => htid (h ▸ hidr)
        have hstep := markDisappeared_get_other s tid id hne
        have hd' : alGet id (s.markDisappeared tid).disappeared = some d :=
          hstep.2.1.trans hd
        have hmax := (markDisappeared_params s tid).1
        have hrec := ih (s.markDisappeared tid) hndr id hidr d hd'
        rw [hmax] at hrec
        constructor
        · intro hgt
          exact hrec.1 hgt
        · intro hle
          have h := hrec.2 hle
          exact ⟨h.1.trans (congrArg (Option.map _) hstep.1), h.2.1,
            h.2.2.trans hstep.2.2⟩

/-- Key-set/key-list well-formedness of a tracker state: the three
per-track maps bind the same keys, in the same order, without duplicates.
(The initial tracker satisfies it, and C9 proves every operation preserves
it.) -/
def ObjectTracker.Wf (s : ObjectTracker) : Prop :=
  alKeys s.objects = alKeys s.disappeared
  ∧ alKeys s.objects = alKeys s.kalman_filters
  ∧ (alKeys s.objects).Nodup

instance (s : ObjectTracker) : Decidable s.Wf := by
  unfold ObjectTracker.Wf; infer_instance


/-- C1: on an empty detection list, `update` bumps `time_since_update` and
`age` by exactly 1 (and the disappeared count by 1) for every live object,
deregisters exactly those objects whose disappeared count then exceeds
`max_disappeared` — removing them, their counts and their Kalman filters —
keeps every other object (no object leaves earlier), and registers nothing
new.  The function is total (the source never raises on well-formed state)
and returns the resulting object map, which is `(s.update gen []).objects`
by construction. -/
theorem C1_empty_update (gen : ℕ → String) (s : ObjectTracker) (hwf : s.Wf) :
    (∀ id (o : TrackedObject) (d : ℕ),
        alGet id s.objects = some o → alGet id s.disappeared = some d →
        (s.max_disappeared < d + 1 →
           alGet id (s.update gen []).objects = none
           ∧ alGet id (s.update gen []).disappeared = none
           ∧ alGet id (s.update gen []).kalman_filters = none)
        ∧ (¬ s.max_disappeared < d + 1 →
           alGet id (s.update gen []).objects =
             some { o with time_since_update := o.time_since_update + 1,
                           age := o.age + 1 }
           ∧ alGet id (s.update gen []).disappeared = some (d + 1)
           ∧ alGet id (s.update gen []).kalman_filters =
               alGet id s.kalman_filters))
    ∧ (∀ id, alGet id s.objects = none →
        alGet id (s.update gen []).objects = none) := by
  have hupd : s.update gen [] =
      (alKeys s.disappeared).foldl ObjectTracker.markDisappeared s := by
    simp [ObjectTracker.update]
  obtain ⟨h1, h2, h3⟩ := hwf
  constructor
  · intro id o d ho hd
    have hidmem : id ∈ alKeys s.objects :=
      (alGet_isSome_iff id s.objects).1 (by simp [ho])
    have hidL : id ∈ alKeys s.disappeared := h1 ▸ hidmem
    have hnd : (alKeys s.disappeared).Nodup := h1 ▸ h3
    have hmain := foldl_markDisappeared_get (alKeys s.disappeared) s hnd
      id hidL d hd
    rw [hupd]
    refine ⟨fun hgt => hmain.1 hgt, fun hle => ?_⟩
    have h := hmain.2 hle
    refine ⟨?_, h.2.1, h.2.2⟩
    rw [h.1, ho]
    rfl
  · intro id hnone
    have hidnot : id ∉ alKeys s.objects := by
      intro hm
      have hs := (alGet_isSome_iff id s.objects).2 hm
      rw [hnone] at hs
      cases hs
    have hnotL : id ∉ alKeys s.disappeared := h1 ▸ hidnot
    rw [hupd,
      (foldl_markDisappeared_not_mem (alKeys s.disappeared) s id hnotL).1]
    exact hnone

/-- A one-object tracker state sitting exactly at the disappearance
threshold, used to witness C1. -/
def c1Obj : TrackedObject :=
  { track_id := "a", class_id := 0, class_name := "car",
    bbox := (0, 0, 2, 2), confidence := 1, centroid := (1, 1) }

/-- Tracker holding `c1Obj` with a disappeared count of 30. -/
def c1State : ObjectTracker :=
  { objects := [("a", c1Obj)], disappeared := [("a", 30)],
    kalman_filters := [("a", { statePre := (1, 1, 0, 0) })] }

/-- Witness for C1: the object with a disappeared count of 30 crosses the
default threshold on one more empty update and is deregistered. -/
theorem C1_empty_update_witness :
    c1State.Wf
    ∧ alGet "a" (c1State.update (fun _ => "") []).objects = none :=
  ⟨by decide,
   (((C1_empty_update (fun _ => "") c1State (by decide)).1 "a" c1Obj 30
      (by decide) (by decide)).1 (by decide)).1⟩


/-! ## C9 and C7: invariants over arbitrary operation sequences -/

/-- The tracker API surface: the three public mutators of `ObjectTracker`. -/
inductive TrackerOp where
  | register (centroid : ℚ × ℚ) (det : Detection)
  | deregister (track_id : String)
  | update (detections : List Detection)

/-- Apply one operation. -/
def TrackerOp.apply (gen : ℕ → String) (s : ObjectTracker) :
    TrackerOp → ObjectTracker
  | .register c det => s.register gen c det
  | .deregister tid => s.deregister tid
  | .update dets => s.update gen dets

/-- Run an operation sequence on a fresh tracker. -/
def runOps (gen : ℕ → String) (ops : List TrackerOp) : ObjectTracker :=
  ops.foldl (fun s op => op.apply gen s) ObjectTracker.init

/-- The three per-track maps bind the same key lists. -/
def keysAligned (s : ObjectTracker) : Prop :=
  alKeys s.objects = alKeys s.disappeared
  ∧ alKeys s.objects = alKeys s.kalman_filters

theorem foldl_preserves {α : Type} (P : ObjectTracker → Prop)
    (f : ObjectTracker → α → ObjectTracker)
    (hf : ∀ s a, P s → P (f s a)) :
    ∀ (l : List α) (s : ObjectTracker), P s → P (l.foldl f s) := by
  intro l
  induction l with
  | nil => intro s h; exact h
  | cons a l ih => intro s h; exact ih (f s a) (hf s a h)

theorem keysAligned_register (gen : ℕ → String) (c : ℚ × ℚ)
    (det : Detection) (s : ObjectTracker) (h : keysAligned s) :
    keysAligned (s.register gen c det) := by
  obtain ⟨h1, h2⟩ := h
  unfold ObjectTracker.register
  refine ⟨?_, ?_⟩ <;> simp only [alKeys_alSet]
  · rw [← h1]
  · rw [← h2]

theorem keysAligned_deregister (tid : String) (s : ObjectTracker)
    (h : keysAligned s) : keysAligned (s.deregister tid) := by
  obtain ⟨h1, h2⟩ := h
  unfold ObjectTracker.deregister
  refine ⟨?_, ?_⟩ <;> simp only [alKeys_alErase]
  · rw [← h1]
  · rw [← h2]

theorem keysAligned_markDisappeared (tid : String) (s : ObjectTracker)
    (h : keysAligned s) : keysAligned (s.markDisappeared tid) := by
  obtain ⟨h1, h2⟩ := h
  unfold ObjectTracker.markDisappeared
  split <;> refine ⟨?_, ?_⟩ <;>
    simp only [ObjectTracker.deregister, ObjectTracker.bumpMissed,
      alKeys_alErase, alKeys_alModify] <;>
    first
    | rw [← h1]
    | rw [← h2]

theorem keys_applyMatch (dets : List Detection) (ics : List (ℚ × ℚ))
    (oids : List String) (rc : ℕ × ℕ) (s : ObjectTracker)
    (hmem : oids.getD rc.1 "" ∈ alKeys s.disappeared) :
    alKeys (s.applyMatch dets ics oids rc).objects = alKeys s.objects
    ∧ alKeys (s.applyMatch dets ics oids rc).disappeared =
        alKeys s.disappeared
    ∧ alKeys (s.applyMatch dets ics oids rc).kalman_filters =
        alKeys s.kalman_filters := by
  unfold ObjectTracker.applyMatch
  refine ⟨?_, ?_, ?_⟩
  · simp only [alKeys_alModify]
  · show alKeys (alSet (oids.getD rc.1 "") 0 s.disappeared) =
      alKeys s.disappeared
    rw [alKeys_alSet, if_pos hmem]
  · simp only [alKeys_alModify]

theorem keys_foldl_applyMatch (dets : List Detection) (ics : List (ℚ × ℚ))
    (oids : List String) :
    ∀ (pairs : List (ℕ × ℕ)) (s : ObjectTracker),
      (∀ rc ∈ pairs, oids.getD rc.1 "" ∈ alKeys s.disappeared) →
      alKeys ((pairs.foldl (fun st rc =>
          st.applyMatch dets ics oids rc) s)).objects = alKeys s.objects
      ∧ alKeys ((pairs.foldl (fun st rc =>
          st.applyMatch dets ics oids rc) s)).disappeared =
          alKeys s.disappeared
      ∧ alKeys ((pairs.foldl (fun st rc =>
          st.applyMatch dets ics oids rc) s)).kalman_filters =
          alKeys s.kalman_filters := by
  intro pairs
  induction pairs with
  | nil => intro s _; exact ⟨rfl, rfl, rfl⟩
  | cons rc rest ih =>
      intro s hmem
      have hstep := keys_applyMatch dets ics oids rc s
        (hmem rc (List.mem_cons_self rc rest))
      have hrec := ih (s.applyMatch dets ics oids rc) (by
        intro rc' hrc'
        rw [hstep.2.1]
        exact hmem rc' (List.mem_cons_of_mem rc hrc'))
      exact ⟨hrec.1.trans hstep.1, hrec.2.1.trans hstep.2.1,
        hrec.2.2.trans hstep.2.2⟩

theorem keysAligned_update (gen : ℕ → String) (dets : List Detection)
    (s : ObjectTracker) (h : keysAligned s) :
    keysAligned (s.update gen dets) := by
  by_cases hdets : dets = []
  · subst hdets
    have hupd : s.update gen [] =
        (alKeys s.disappeared).foldl ObjectTracker.markDisappeared s := by
      simp [ObjectTracker.update]
    rw [hupd]
    exact foldl_preserves keysAligned _
      (fun s' tid h' => keysAligned_markDisappeared tid s' h') _ s h
  · by_cases hobj : s.objects = []
    · have hupd : s.update gen dets =
          (dets.zip (dets.map Detection.centroid)).foldl
            (fun st dc => st.register gen dc.2 dc.1) s := by
        simp [ObjectTracker.update, hdets, hobj]
      rw [hupd]
      exact foldl_preserves keysAligned _
        (fun s' dc h' => keysAligned_register gen dc.2 dc.1 s' h') _ s h
    · -- the matching branch
      simp only [ObjectTracker.update, if_neg hdets, if_neg hobj]
      refine foldl_preserves keysAligned _
        (fun s' c h' => keysAligned_register gen _ _ s' h') _ _ ?_
      refine foldl_preserves keysAligned
        (fun st row => st.markDisappeared ((alKeys s.objects).getD row ""))
        (fun s' row h' => keysAligned_markDisappeared _ s' h') _ _ ?_
      have hrowmem : ∀ rc ∈ matchPairs
          ((alKeys s.objects).map (fun oid =>
            ((alGet oid s.objects).map TrackedObject.centroid).getD (0, 0)))
          (dets.map Detection.centroid) s.max_distance2,
          (alKeys s.objects).getD rc.1 "" ∈ alKeys s.disappeared := by
        intro rc hrc
        have hm1 : rc.1 ∈ sortIdx (minKeys
            ((alKeys s.objects).map (fun oid =>
              ((alGet oid s.objects).map TrackedObject.centroid).getD (0, 0)))
            (dets.map Detection.centroid)) :=
          (greedyPairs_sublist _ _ _ _ _ _).subset
            (List.mem_map_of_mem Prod.fst hrc)
        have hm2 := (sortIdx_perm _).subset hm1
        have hm3 : rc.1 < (alKeys s.objects).length := by
          have := List.mem_range.1 hm2
          simpa [minKeys] using this
        have hm4 : (alKeys s.objects).getD rc.1 "" ∈ alKeys s.objects := by
          rw [List.getD_eq_getElem _ _ hm3]
          exact List.getElem_mem hm3
        exact h.1 ▸ hm4
      have hf := keys_foldl_applyMatch dets (dets.map Detection.centroid)
        (alKeys s.objects)
        (matchPairs
          ((alKeys s.objects).map (fun oid =>
            ((alGet oid s.objects).map TrackedObject.centroid).getD (0, 0)))
          (dets.map Detection.centroid) s.max_distance2) s hrowmem
      constructor
      · rw [hf.1, hf.2.1]; exact h.1
      · rw [hf.1, hf.2.2]; exact h.2

/-- C9: after any sequence of `register`, `deregister` and `update`
operations on a fresh tracker, the three per-track maps — `objects`,
`disappeared` and `kalman_filters` — bind exactly the same track ids (even
in the same order). -/
theorem C9_key_sets (gen : ℕ → String) (ops : List TrackerOp) :
    alKeys (runOps gen ops).objects = alKeys (runOps gen ops).disappeared
    ∧ alKeys (runOps gen ops).objects =
        alKeys (runOps gen ops).kalman_filters := by
  have hinit : keysAligned ObjectTracker.init := ⟨rfl, rfl⟩
  exact foldl_preserves keysAligned _
    (fun s op h => by
      cases op with
      | register c det => exact keysAligned_register gen c det s h
      | deregister tid => exact keysAligned_deregister tid s h
      | update dets => exact keysAligned_update gen dets s h)
    ops ObjectTracker.init hinit


/-- Ghost invariant: the issued-id log is exactly the generator's image of
the draw positions consumed so far. -/
def issuedInv (gen : ℕ → String) (s : ObjectTracker) : Prop :=
  s.issuedLog = (List.range s.nextId).map gen

theorem issuedInv_register (gen : ℕ → String) (c : ℚ × ℚ) (det : Detection)
    (s : ObjectTracker) (h : issuedInv gen s) :
    issuedInv gen (s.register gen c det) := by
  unfold issuedInv at h ⊢
  show s.issuedLog ++ [gen s.nextId] = (List.range (s.nextId + 1)).map gen
  rw [h, List.range_succ, List.map_append]
  rfl

theorem issuedInv_markDisappeared (gen : ℕ → String) (tid : String)
    (s : ObjectTracker) (h : issuedInv gen s) :
    issuedInv gen (s.markDisappeared tid) := by
  unfold issuedInv
  rw [(markDisappeared_params s tid).2.2.2,
    (markDisappeared_params s tid).2.2.1]
  exact h

theorem issuedInv_update (gen : ℕ → String) (dets : List Detection)
    (s : ObjectTracker) (h : issuedInv gen s) :
    issuedInv gen (s.update gen dets) := by
  by_cases hdets : dets = []
  · subst hdets
    rw [show s.update gen [] =
        (alKeys s.disappeared).foldl ObjectTracker.markDisappeared s from by
      simp [ObjectTracker.update]]
    exact foldl_preserves (issuedInv gen) _
      (fun s' tid h' => issuedInv_markDisappeared gen tid s' h') _ s h
  · by_cases hobj : s.objects = []
    · rw [show s.update gen dets =
          (dets.zip (dets.map Detection.centroid)).foldl
            (fun st dc => st.register gen dc.2 dc.1) s from by
        simp [ObjectTracker.update, hdets, hobj]]
      exact foldl_preserves (issuedInv gen) _
        (fun s' dc h' => issuedInv_register gen dc.2 dc.1 s' h') _ s h
    · simp only [ObjectTracker.update, if_neg hdets, if_neg hobj]
      refine foldl_preserves (issuedInv gen) _
        (fun s' c h' => issuedInv_register gen _ _ s' h') _ _ ?_
      refine foldl_preserves (issuedInv gen)
        (fun st row => st.markDisappeared ((alKeys s.objects).getD row ""))
        (fun s' row h' => issuedInv_markDisappeared gen _ s' h') _ _ ?_
      exact foldl_preserves (issuedInv gen)
        (fun st rc => st.applyMatch dets (dets.map Detection.centroid)
          (alKeys s.objects) rc)
        (fun s' rc h' => h') _ _ h

/-- C7: with the uuid draws modelled as an injective fresh-id stream, a
track id issued by `register` — directly or from inside `update` — is never
issued a second time over any operation sequence on one tracker instance:
the ghost log of issued ids never repeats. -/
theorem C7_track_id_freshness (gen : ℕ → String)
    (hinj : Function.Injective gen) (ops : List TrackerOp) :
    (runOps gen ops).issuedLog.Nodup := by
  have hinv : issuedInv gen (runOps gen ops) :=
    foldl_preserves (issuedInv gen) _
      (fun s op h => by
        cases op with
        | register c det => exact issuedInv_register gen c det s h
        | deregister tid => exact h
        | update dets => exact issuedInv_update gen dets s h)
      ops ObjectTracker.init (by simp [issuedInv, ObjectTracker.init])
  rw [hinv]
  exact (List.nodup_range _).map hinj

/-- A concrete injective id stream for the C7 witness. -/
def c7gen (n : ℕ) : String := String.mk (List.replicate n 'a')

theorem c7gen_injective : Function.Injective c7gen := by
  intro m n h
  have hdata := congrArg String.data h
  have hlen := congrArg List.length hdata
  simpa [c7gen] using hlen

/-- A concrete detection shared by witnesses. -/
def sampleDet : Detection :=
  { x1 := 0, y1 := 0, x2 := 2, y2 := 2, confidence := 1, class_id := 0,
    label := "car" }

/-- Witness for C7 on a concrete operation sequence mixing all three
operations. -/
theorem C7_track_id_freshness_witness :
    (runOps c7gen [TrackerOp.register (0, 0) sampleDet,
      TrackerOp.update [], TrackerOp.register (5, 5) sampleDet,
      TrackerOp.deregister (c7gen 0)]).issuedLog.Nodup :=
  C7_track_id_freshness c7gen c7gen_injective _


/-! ## C3: the frame-rate governor (`app/utils/FPSRateLimiter.py`) -/

/-- State of `FPSRateLimiter.__init__`: interval `1/target_fps` (0 when the target is
not positive), no frame seen yet. -/
structure FPSRateLimiter where
  target_fps : ℚ
  frame_interval : ℚ
  last_frame_time : Option ℚ
  frame_count : ℕ
  start_time : ℚ
deriving DecidableEq

def FPSRateLimiter.init (target_fps : ℚ) (now : ℚ) : FPSRateLimiter :=
  { target_fps := target_fps,
    frame_interval := if 0 < target_fps then 1 / target_fps else 0,
    last_frame_time := none,
    frame_count := 0,
    start_time := now }

/-- Python `should_process_frame`, with `time.time()` passed in: the first offer is
always accepted; a later offer is accepted iff the elapsed time since the
last *accepted* offer reaches the interval.  Returns the decision and the
successor state. -/
def FPSRateLimiter.should_process_frame (s : FPSRateLimiter)
    (current_time : ℚ) : Bool × FPSRateLimiter :=
  match s.last_frame_time with
  | none =>
      (true, { s with last_frame_time := some current_time,
                      frame_count := s.frame_count + 1 })
  | some last =>
      if s.frame_interval ≤ current_time - last then
        (true, { s with last_frame_time := some current_time,
                        frame_count := s.frame_count + 1 })
      else (false, s)

/-- Offer a sequence of frames (by timestamp) and record each decision. -/
def runOffers (s : FPSRateLimiter) : List ℚ → List Bool
  | [] => []
  | t :: ts =>
      (s.should_process_frame t).1 ::
        runOffers (s.should_process_frame t).2 ts

/-- Modelled from the spec (refinement reference): "first offered frame
always accepted; later frame accepted iff elapsed time since last
acceptance ≥ 1/target_fps", as a recurrence on the last accepted
timestamp. -/
def specAccepts (target_fps : ℚ) : Option ℚ → List ℚ → List Bool
  | _, [] => []
  | none, t :: ts => true :: specAccepts target_fps (some t) ts
  | some last, t :: ts =>
      if 1 / target_fps ≤ t - last then
        true :: specAccepts target_fps (some t) ts
      else
        false :: specAccepts target_fps (some last) ts

theorem runOffers_eq_spec (fps : ℚ) :
    ∀ (times : List ℚ) (s : FPSRateLimiter),
      s.frame_interval = 1 / fps →
      runOffers s times = specAccepts fps s.last_frame_time times := by
  intro times
  induction times with
  | nil => intro s _; cases s.last_frame_time <;> rfl
  | cons t ts ih =>
      intro s hint
      cases hlast : s.last_frame_time with
      | none =>
          simp only [runOffers, FPSRateLimiter.should_process_frame, hlast,
            specAccepts]
          exact congrArg (true :: ·) (ih _ hint)
      | some last =>
          by_cases hc : s.frame_interval ≤ t - last
          · simp only [runOffers, FPSRateLimiter.should_process_frame, hlast,
              if_pos hc, specAccepts, if_pos (hint ▸ hc)]
            exact congrArg (true :: ·) (ih _ hint)
          · simp only [runOffers, FPSRateLimiter.should_process_frame, hlast,
              if_neg hc, specAccepts, if_neg (hint ▸ hc)]
            rw [ih s hint, hlast]

/-- C3: for a positive target rate the governor accepts exactly per the
spec recurrence — first offer unconditionally, a later offer iff the time
since the last accepted offer is at least `1/target_fps` — and on the
concrete trace `target_fps = 10`, offers at `t = 0, 0.05, 0.12, 0.21`, it
accepts the frames at `0` and `0.12` and drops the other two. -/
theorem C3_rate_governor (fps : ℚ) (hfps : 0 < fps) (t0 : ℚ)
    (times : List ℚ) :
    runOffers (FPSRateLimiter.init fps t0) times = specAccepts fps none times
    ∧ runOffers (FPSRateLimiter.init 10 t0)
        [0, 1 / 20, 3 / 25, 21 / 100] = [true, false, true, false] := by
  constructor
  · have hint : (FPSRateLimiter.init fps t0).frame_interval = 1 / fps := by
      simp [FPSRateLimiter.init, hfps]
    have h := runOffers_eq_spec fps times (FPSRateLimiter.init fps t0) hint
    simpa [FPSRateLimiter.init] using h
  · norm_num [runOffers, FPSRateLimiter.should_process_frame,
      FPSRateLimiter.init]

/-- Witness for C3 at the spec's concrete trace. -/
theorem C3_rate_governor_witness :
    runOffers (FPSRateLimiter.init 10 0) [0, 1 / 20, 3 / 25, 21 / 100] =
      [true, false, true, false] :=
  (C3_rate_governor 10 (by norm_num) 0 []).2


/-! ## C4: the calibration engine (`app/core/calibration/calibrator.py`)

Distances are carried as squares (file header): the source's guards
`pixel_dist == 0`, `real_dist == 0` and `pixels_per_unit < 10` translate to
the squared comparisons `= 0`, `= 0` and `< 10²`, and the returned
pixels-per-meter value is represented by its square (multiplying by 100
becomes multiplying by `100²`). -/

/-- One calibration point pair (the dict with keys `pixel_x`, `pixel_y`,
`real_x`, `real_y`). -/
structure CalPoint where
  pixel_x : ℚ
  pixel_y : ℚ
  real_x : ℚ
  real_y : ℚ
deriving DecidableEq, Inhabited

/-- Squared pixel distance between the first two calibration points. -/
def pixelDist2 (p1 p2 : CalPoint) : ℚ :=
  (p2.pixel_x - p1.pixel_x) ^ 2 + (p2.pixel_y - p1.pixel_y) ^ 2

/-- Squared real-world distance between the first two calibration points. -/
def realDist2 (p1 p2 : CalPoint) : ℚ :=
  (p2.real_x - p1.real_x) ^ 2 + (p2.real_y - p1.real_y) ^ 2

/-- Python `CameraCalibrator.calibrate_reference_object` (squared
representation):
`None` ("not calibrated") on fewer than two points or a degenerate pair;
otherwise the (squared) ratio, times `100²` when the ratio is below 10.
The source's try/except cannot fire on exact arithmetic. -/
def calibrate_reference_object (points : List CalPoint) : Option ℚ :=
  match points with
  | p1 :: p2 :: _ =>
      if pixelDist2 p1 p2 = 0 ∨ realDist2 p1 p2 = 0 then none
      else
        if pixelDist2 p1 p2 / realDist2 p1 p2 < 10 ^ 2 then
          some (pixelDist2 p1 p2 / realDist2 p1 p2 * 100 ^ 2)
        else some (pixelDist2 p1 p2 / realDist2 p1 p2)
  | _ => none

theorem calibrate_none_iff (points : List CalPoint) :
    calibrate_reference_object points = none ↔
      points.length < 2
      ∨ ∃ p1 p2 rest, points = p1 :: p2 :: rest ∧
          (pixelDist2 p1 p2 = 0 ∨ realDist2 p1 p2 = 0) := by
  rcases points with _ | ⟨p1, _ | ⟨p2, rest⟩⟩
  · simp [calibrate_reference_object]
  · simp [calibrate_reference_object]
  · by_cases hz : pixelDist2 p1 p2 = 0 ∨ realDist2 p1 p2 = 0
    · simp only [calibrate_reference_object, if_pos hz]
      constructor
      · intro _
        exact Or.inr ⟨p1, p2, rest, rfl, hz⟩
      · intro _
        trivial
    · simp only [calibrate_reference_object, if_neg hz]
      constructor
      · intro h
        split at h <;> cases h
      · rintro (hlen | ⟨q1, q2, r, heq, hz'⟩)
        · simp only [List.length_cons] at hlen
          omega
        · obtain ⟨rfl, rfl, rfl⟩ : q1 = p1 ∧ q2 = p2 ∧ r = rest := by
            injection heq with h1 h2
            injection h2 with h2 h3
            exact ⟨h1.symm, h2.symm, h3.symm⟩
          exact absurd hz' hz

theorem calibrate_some (p1 p2 : CalPoint) (rest : List CalPoint)
    (hp : pixelDist2 p1 p2 ≠ 0) (hr : realDist2 p1 p2 ≠ 0) :
    calibrate_reference_object (p1 :: p2 :: rest) =
      some (if pixelDist2 p1 p2 / realDist2 p1 p2 < 10 ^ 2 then
              pixelDist2 p1 p2 / realDist2 p1 p2 * 100 ^ 2
            else pixelDist2 p1 p2 / realDist2 p1 p2) := by
  have hz : ¬ (pixelDist2 p1 p2 = 0 ∨ realDist2 p1 p2 = 0) := by
    rintro (h | h)
    · exact hp h
    · exact hr h
  simp only [calibrate_reference_object, if_neg hz]
  split <;> rfl

/-- C4: `calibrate` returns "not calibrated" (`None`) exactly when fewer
than two point pairs are given or the pixel or real distance of the first
two pairs is zero; otherwise the ratio `pixel_dist/real_dist`, multiplied
by 100 when below 10 (all in squared representation).  On the concrete
pairs: pixel distance 50 with real distance 1 gives 50 (squared: `50²`),
pixel distance 8 with real distance 1 gives 800 (squared: `800²`). -/
theorem C4_calibrate (points : List CalPoint) (p1 p2 : CalPoint)
    (rest : List CalPoint) (hp : pixelDist2 p1 p2 ≠ 0)
    (hr : realDist2 p1 p2 ≠ 0) :
    (calibrate_reference_object points = none ↔
      points.length < 2
      ∨ ∃ q1 q2 r, points = q1 :: q2 :: r ∧
          (pixelDist2 q1 q2 = 0 ∨ realDist2 q1 q2 = 0))
    ∧ calibrate_reference_object (p1 :: p2 :: rest) =
        some (if pixelDist2 p1 p2 / realDist2 p1 p2 < 10 ^ 2 then
                pixelDist2 p1 p2 / realDist2 p1 p2 * 100 ^ 2
              else pixelDist2 p1 p2 / realDist2 p1 p2)
    ∧ calibrate_reference_object
        [⟨0, 0, 0, 0⟩, ⟨50, 0, 1, 0⟩] = some (50 ^ 2)
    ∧ calibrate_reference_object
        [⟨0, 0, 0, 0⟩, ⟨8, 0, 1, 0⟩] = some (800 ^ 2) := by
  refine ⟨calibrate_none_iff points, calibrate_some p1 p2 rest hp hr, ?_, ?_⟩
  · norm_num [calibrate_reference_object, pixelDist2, realDist2]
  · norm_num [calibrate_reference_object, pixelDist2, realDist2]

/-- Witness for C4 at the spec's two concrete calibrations. -/
theorem C4_calibrate_witness :
    calibrate_reference_object [⟨0, 0, 0, 0⟩, ⟨50, 0, 1, 0⟩] = some (50 ^ 2)
    ∧ calibrate_reference_object
        [⟨0, 0, 0, 0⟩, ⟨8, 0, 1, 0⟩] = some (800 ^ 2) :=
  ⟨(C4_calibrate [] ⟨0, 0, 0, 0⟩ ⟨50, 0, 1, 0⟩ []
      (by norm_num [pixelDist2]) (by norm_num [realDist2])).2.2.1,
   (C4_calibrate [] ⟨0, 0, 0, 0⟩ ⟨50, 0, 1, 0⟩ []
      (by norm_num [pixelDist2]) (by norm_num [realDist2])).2.2.2⟩

/-! ## C10: the speed calculator (`app/core/tracking/speed_calculator.py`)

Speeds derived from a Euclidean norm are carried as squares; the linear
per-axis velocities are exact. -/

structure SpeedCalculator where
  fps : ℚ
deriving DecidableEq

/-- The module-level global `speed_calculator = SpeedCalculator()`:
default `fps = 30`. -/
def speed_calculator : SpeedCalculator := { fps := 30 }

/-- The dict `calculate_speed` returns: `speed_px_per_sec` (squared here),
the scaled velocity components, and — only when a usable ratio is given —
`speed_m_per_sec` and `speed_kmh` (both squared here). -/
structure SpeedResult where
  speed_px2 : ℚ
  velocity_x : ℚ
  velocity_y : ℚ
  speed_m2 : Option ℚ
  speed_kmh2 : Option ℚ
deriving DecidableEq

/-- Python `SpeedCalculator.calculate_speed`.  The guard
`if pixels_per_meter:` is falsy both for `None` and for a ratio of `0`,
hence the `getD 0 ≠ 0` test.  `3.6 = 18/5` appears squared. -/
def SpeedCalculator.calculate_speed (c : SpeedCalculator) (velocity : ℚ × ℚ)
    (pixels_per_meter : Option ℚ) : SpeedResult :=
  if pixels_per_meter.getD 0 ≠ 0 then
    { speed_px2 := (velocity.1 ^ 2 + velocity.2 ^ 2) * c.fps ^ 2,
      velocity_x := velocity.1 * c.fps,
      velocity_y := velocity.2 * c.fps,
      speed_m2 := some ((velocity.1 ^ 2 + velocity.2 ^ 2) * c.fps ^ 2 /
        (pixels_per_meter.getD 0) ^ 2),
      speed_kmh2 := some ((velocity.1 ^ 2 + velocity.2 ^ 2) * c.fps ^ 2 /
        (pixels_per_meter.getD 0) ^ 2 * (18 / 5) ^ 2) }
  else
    { speed_px2 := (velocity.1 ^ 2 + velocity.2 ^ 2) * c.fps ^ 2,
      velocity_x := velocity.1 * c.fps,
      velocity_y := velocity.2 * c.fps,
      speed_m2 := none,
      speed_kmh2 := none }

/-- The call site in `process_frame_sync` (`app/api/websocket.py`, lines
309–318): speed comes from the module-global `speed_calculator` — the
camera's configured fps is accepted here only to show it is never
consulted; the ratio is passed iff the camera is calibrated. -/
def process_frame_speed (camera_fps : ℚ) (is_calibrated : Bool)
    (pixels_per_meter : ℚ) (velocity : ℚ × ℚ) : SpeedResult :=
  speed_calculator.calculate_speed velocity
    (if is_calibrated then some pixels_per_meter else none)

/-- C10: per-object speed is always computed at the fixed 30 fps of the
global calculator, whatever the camera's configured fps: the result is
independent of `camera_fps`; `speed_px_per_sec² = (vx² + vy²)·30²`; and
with a calibrated nonzero ratio, `speed_m_per_sec² = speed_px²/ratio²` and
`speed_kmh² = speed_m² · 3.6²`. -/
theorem C10_speed_fixed_fps (fps1 fps2 : ℚ) (cal : Bool) (ppm : ℚ)
    (v : ℚ × ℚ) (hppm : ppm ≠ 0) :
    process_frame_speed fps1 cal ppm v = process_frame_speed fps2 cal ppm v
    ∧ (process_frame_speed fps1 cal ppm v).speed_px2 =
        (v.1 ^ 2 + v.2 ^ 2) * 30 ^ 2
    ∧ (cal = true →
        (process_frame_speed fps1 cal ppm v).speed_m2 =
          some ((v.1 ^ 2 + v.2 ^ 2) * 30 ^ 2 / ppm ^ 2)
        ∧ (process_frame_speed fps1 cal ppm v).speed_kmh2 =
          some ((v.1 ^ 2 + v.2 ^ 2) * 30 ^ 2 / ppm ^ 2 * (18 / 5) ^ 2)) := by
  refine ⟨rfl, ?_, ?_⟩
  · unfold process_frame_speed SpeedCalculator.calculate_speed
    split <;> split <;> rfl
  · intro hcal
    subst hcal
    unfold process_frame_speed SpeedCalculator.calculate_speed
    simp [speed_calculator, hppm]

/-- Witness for C10 at the spec's end-to-end example: ratio 100 px/m,
velocity (10, 0) px/frame — 300 px/s, 3 m/s, 10.8 km/h (squares: 9 and
2916/25 = 10.8²), and a camera configured at 60 fps changes nothing. -/
theorem C10_speed_fixed_fps_witness :
    (process_frame_speed 60 true 100 (10, 0)).speed_m2 = some 9
    ∧ (process_frame_speed 60 true 100 (10, 0)).speed_kmh2 =
        some (2916 / 25) := by
  have h := (C10_speed_fixed_fps 60 30 true 100 (10, 0) (by norm_num)).2.2 rfl
  constructor
  · rw [h.1]
    norm_num
  · rw [h.2]
    norm_num


/-! ## C8: the camera session registry (`app/services/stream_manager.py`) -/

/-- The fields of the camera record the registry consults: the id and the
feature dict.  (Only boolean-valued feature entries matter to the registry;
the tracking flag is read with `features.get("tracking", False)`.) -/
structure Camera where
  id : String
  features : List (String × Bool)
deriving DecidableEq

/-- The flag `features.get("tracking", False)`. -/
def trackingFlag (features : List (String × Bool)) : Bool :=
  (alGet "tracking" features).getD false

/-- The `CameraStream` session: the per-camera session, holding the camera record and
zero-or-one tracker. -/
structure CameraStream where
  camera : Camera
  tracker : Option ObjectTracker
deriving DecidableEq

/-- Python `CameraStream.__init__`: a tracker exists iff tracking is enabled. -/
def CameraStream.init (camera : Camera) : CameraStream :=
  { camera := camera,
    tracker := if trackingFlag camera.features then some ObjectTracker.init
               else none }

/-- Python `CameraStream.update_features`: replace the feature dict; create a
tracker only when tracking is on and none exists (`not self.tracker` is
Python truthiness for `None`); discard it when tracking is off and one
exists; otherwise leave the tracker alone. -/
def CameraStream.update_features (s : CameraStream)
    (features : List (String × Bool)) : CameraStream :=
  if trackingFlag features && s.tracker.isNone then
    { camera := { s.camera with features := features },
      tracker := some ObjectTracker.init }
  else if !(trackingFlag features) && s.tracker.isSome then
    { camera := { s.camera with features := features }, tracker := none }
  else
    { camera := { s.camera with features := features }, tracker := s.tracker }

/-- The `StreamManager` registry: camera id → session. -/
structure StreamManager where
  active_streams : List (String × CameraStream)
deriving DecidableEq

/-- Python `add_stream`: idempotent — an already-active id returns `True` leaving
the registry untouched; otherwise a fresh session is inserted.  (The
source's try/except cannot fire on this pure construction.) -/
def StreamManager.add_stream (m : StreamManager) (camera : Camera) :
    Bool × StreamManager :=
  if camera.id ∈ alKeys m.active_streams then (true, m)
  else
    (true,
      { active_streams :=
          alSet camera.id (CameraStream.init camera) m.active_streams })

/-- Python `remove_stream`. -/
def StreamManager.remove_stream (m : StreamManager) (camera_id : String) :
    Bool × StreamManager :=
  if camera_id ∈ alKeys m.active_streams then
    (true, { active_streams := alErase camera_id m.active_streams })
  else (false, m)

/-- Python `update_stream_features`: in-place `update_features` on the session if
present, no-op otherwise (`alModify` is the identity on an absent key). -/
def StreamManager.update_stream_features (m : StreamManager)
    (camera_id : String) (features : List (String × Bool)) : StreamManager :=
  { active_streams := alModify camera_id
      (fun st => st.update_features features) m.active_streams }

/-- C8: the registry never replaces an existing session's tracker except on
a tracking-flag transition.  `add_stream` on a present id returns the
registry unchanged (so the session and its tracker survive);
`update_features` keeps the very same tracker when the flag stays on,
creates a fresh tracker exactly on an off→on transition, always ends
trackerless when the new flag is off, and both the constructor and
`update_features` maintain the invariant "tracker present iff tracking
flag on" that makes `tracker = none` mean the old flag was off. -/
theorem C8_registry_tracker_stability (m : StreamManager) (camera : Camera)
    (st : CameraStream) (features : List (String × Bool))
    (hinv : st.tracker.isSome = trackingFlag st.camera.features) :
    (camera.id ∈ alKeys m.active_streams → m.add_stream camera = (true, m))
    ∧ (trackingFlag st.camera.features = true →
        trackingFlag features = true →
        (st.update_features features).tracker = st.tracker)
    ∧ (trackingFlag st.camera.features = false →
        trackingFlag features = true →
        (st.update_features features).tracker = some ObjectTracker.init)
    ∧ (trackingFlag features = false →
        (st.update_features features).tracker = none)
    ∧ (st.update_features features).tracker.isSome = trackingFlag features
    ∧ (CameraStream.init camera).tracker.isSome =
        trackingFlag camera.features := by
  refine ⟨?_, ?_, ?_, ?_, ?_, ?_⟩
  · intro hmem
    simp [StreamManager.add_stream, hmem]
  · intro hold hnew
    cases htr : st.tracker with
    | none =>
        rw [htr, hold] at hinv
        simp at hinv
    | some t =>
        unfold CameraStream.update_features
        simp [hnew, htr]
  · intro hold hnew
    cases htr : st.tracker with
    | none =>
        unfold CameraStream.update_features
        simp [hnew, htr]
    | some t =>
        rw [htr, hold] at hinv
        simp at hinv
  · intro hnew
    unfold CameraStream.update_features
    cases htr : st.tracker <;> simp [hnew, htr]
  · unfold CameraStream.update_features
    cases hf : trackingFlag features <;> cases htr : st.tracker <;>
      simp [hf, htr]
  · unfold CameraStream.init
    cases hf : trackingFlag camera.features <;> simp [hf]

/-- Concrete camera/session/registry for the C8 witness. -/
def c8Cam : Camera := { id := "cam", features := [("tracking", true)] }

def c8Stream : CameraStream := CameraStream.init c8Cam

def c8Mgr : StreamManager := { active_streams := [("cam", c8Stream)] }

/-- Witness for C8: re-adding the active camera changes nothing, and a
feature edit that keeps tracking on keeps the very same tracker. -/
theorem C8_registry_tracker_stability_witness :
    c8Mgr.add_stream c8Cam = (true, c8Mgr)
    ∧ (c8Stream.update_features
        [("tracking", true), ("speed", true)]).tracker = c8Stream.tracker :=
  ⟨(C8_registry_tracker_stability c8Mgr c8Cam c8Stream
      [("tracking", true), ("speed", true)] (by decide)).1 (by decide),
   (C8_registry_tracker_stability c8Mgr c8Cam c8Stream
      [("tracking", true), ("speed", true)] (by decide)).2.1
      (by decide) (by decide)⟩


/-! ## C6: the relay's behaviour on a non-success upstream status
(`app/api/http_camera_proxy.py`, `stream_generator`) -/

/-- What the relay generator could deliver to its subscriber: body chunks,
or a structured error event.  The error constructor exists so that the
property "a structured error is surfaced" is statable; the faithful
embedding of `stream_generator` below never produces it — on a non-success
status the source logs and returns, silently ending the already-started
(status 200) streaming response. -/
inductive RelayEvent where
  | chunk (bytes : List ℕ)
  | error (status : ℕ)
deriving DecidableEq

/-- The chunk pass-through loop (lines 186–200): before each chunk the
subscriber-disconnected flag is checked (indexed by iteration count);
empty chunks are skipped (`if chunk:`); chunks pass through
byte-identical. -/
def relayDeliver (disconnectedAt : ℕ → Bool) :
    List (List ℕ) → ℕ → List RelayEvent
  | [], _ => []
  | c :: cs, i =>
      if disconnectedAt i then []
      else if c = [] then relayDeliver disconnectedAt cs (i + 1)
      else RelayEvent.chunk c :: relayDeliver disconnectedAt cs (i + 1)

/-- Python `stream_generator` after authentication, over an abstract upstream
response (status and body chunks): `if response.status != 200: return`
(lines 176–178) — nothing is delivered; otherwise the pass-through loop
runs. -/
def stream_generator (status : ℕ) (chunks : List (List ℕ))
    (disconnectedAt : ℕ → Bool) : List RelayEvent :=
  if status ≠ 200 then [] else relayDeliver disconnectedAt chunks 0

/-- Counterexample to C6 as stated: with upstream status 401 and a body
available, the subscriber receives no body bytes — but also no structured
error event at all; the error surfacing the claim asserts does not
happen. -/
theorem C6_counterexample_no_error_event :
    stream_generator 401 [[1, 2, 3]] (fun _ => false) = []
    ∧ RelayEvent.error 401 ∉
        stream_generator 401 [[1, 2, 3]] (fun _ => false) := by
  refine ⟨?_, ?_⟩ <;> simp [stream_generator, relayDeliver]

/-- C6 (amended): when the authenticated upstream request returns a
non-success status, the relay aborts delivery: the subscriber receives no
body bytes — indeed no events of any kind.  The status is only logged,
never surfaced to the subscriber as a structured error (the HTTP response
to the subscriber has already started with status 200). -/
theorem C6_nonsuccess_aborts_silently (status : ℕ) (h : status ≠ 200)
    (chunks : List (List ℕ)) (disconnectedAt : ℕ → Bool) :
    stream_generator status chunks disconnectedAt = [] := by
  simp [stream_generator, h]

/-- Witness for the amended C6 at status 500. -/
theorem C6_nonsuccess_aborts_silently_witness :
    stream_generator 500 [[7]] (fun _ => false) = [] :=
  C6_nonsuccess_aborts_silently 500 (by decide) [[7]] (fun _ => false)


/-! ## C5: Digest authentication (`app/api/http_camera_proxy.py`)

The source hashes with `hashlib.md5`; MD5 (RFC 1321) is embedded in full
below over byte lists (32-bit words as naturals reduced mod `2³²`).  All
header material the source hashes is ASCII, so UTF-8 encoding is the
codepoint list. -/

/-- Reduce to a 32-bit word. -/
def w32 (n : ℕ) : ℕ := n % 4294967296

/-- Left rotation of a 32-bit word. -/
def rotl32 (x c : ℕ) : ℕ :=
  w32 (x * 2 ^ c) ||| (x / 2 ^ (32 - c))

/-- The MD5 sine-derived constant table `K[i] = ⌊|sin(i+1)|·2³²⌋`. -/
def md5K : List ℕ :=
  [3614090360, 3905402710, 606105819, 3250441966, 4118548399, 1200080426,
   2821735955, 4249261313, 1770035416, 2336552879, 4294925233, 2304563134,
   1804603682, 4254626195, 2792965006, 1236535329, 4129170786, 3225465664,
   643717713, 3921069994, 3593408605, 38016083, 3634488961, 3889429448,
   568446438, 3275163606, 4107603335, 1163531501, 2850285829, 4243563512,
   1735328473, 2368359562, 4294588738, 2272392833, 1839030562, 4259657740,
   2763975236, 1272893353, 4139469664, 3200236656, 681279174, 3936430074,
   3572445317, 76029189, 3654602809, 3873151461, 530742520, 3299628645,
   4096336452, 1126891415, 2878612391, 4237533241, 1700485571, 2399980690,
   4293915773, 2240044497, 1873313359, 4264355552, 2734768916, 1309151649,
   4149444226, 3174756917, 718787259, 3951481745]

/-- The MD5 per-round shift amounts. -/
def md5S : List ℕ :=
  [7, 12, 17, 22, 7, 12, 17, 22, 7, 12, 17, 22, 7, 12, 17, 22,
   5, 9, 14, 20, 5, 9, 14, 20, 5, 9, 14, 20, 5, 9, 14, 20,
   4, 11, 16, 23, 4, 11, 16, 23, 4, 11, 16, 23, 4, 11, 16, 23,
   6, 10, 15, 21, 6, 10, 15, 21, 6, 10, 15, 21, 6, 10, 15, 21]

/-- The round function value and message index for round `i`
(32-bit complement written as xor with `2³² - 1`). -/
def md5FG (b c d i : ℕ) : ℕ × ℕ :=
  if i < 16 then ((b &&& c) ||| ((b ^^^ 4294967295) &&& d), i)
  else if i < 32 then
    ((d &&& b) ||| ((d ^^^ 4294967295) &&& c), (5 * i + 1) % 16)
  else if i < 48 then (b ^^^ c ^^^ d, (3 * i + 5) % 16)
  else (c ^^^ (b ||| (d ^^^ 4294967295)), (7 * i) % 16)

/-- One MD5 round on the running `(a, b, c, d)` state. -/
def md5Round (M : List ℕ) (abcd : ℕ × ℕ × ℕ × ℕ) (i : ℕ) : ℕ × ℕ × ℕ × ℕ :=
  let f := w32 ((md5FG abcd.2.1 abcd.2.2.1 abcd.2.2.2 i).1 + abcd.1 +
    md5K.getD i 0 + M.getD (md5FG abcd.2.1 abcd.2.2.1 abcd.2.2.2 i).2 0)
  (abcd.2.2.2, w32 (abcd.2.1 + rotl32 f (md5S.getD i 0)), abcd.2.1,
    abcd.2.2.1)

/-- Process one 64-byte block (as 16 little-endian words). -/
def md5ProcessBlock (abcd : ℕ × ℕ × ℕ × ℕ) (M : List ℕ) : ℕ × ℕ × ℕ × ℕ :=
  let r := (List.range 64).foldl (md5Round M) abcd
  (w32 (abcd.1 + r.1), w32 (abcd.2.1 + r.2.1), w32 (abcd.2.2.1 + r.2.2.1),
    w32 (abcd.2.2.2 + r.2.2.2))

/-- Little-endian 4-byte groups to words. -/
def leWords : List ℕ → List ℕ
  | b0 :: b1 :: b2 :: b3 :: rest =>
      (b0 + 256 * (b1 + 256 * (b2 + 256 * b3))) :: leWords rest
  | _ => []

/-- Fold the block function over the padded message, 64 bytes at a time
(`fuel` bounds the recursion structurally; it is instantiated with the
padded length, which always suffices). -/
def md5Blocks (fuel : ℕ) (abcd : ℕ × ℕ × ℕ × ℕ) (l : List ℕ) :
    ℕ × ℕ × ℕ × ℕ :=
  match fuel with
  | 0 => abcd
  | fuel + 1 =>
      match l with
      | [] => abcd
      | _ :: _ =>
          md5Blocks fuel (md5ProcessBlock abcd (leWords (l.take 64)))
            (l.drop 64)

/-- Little-endian bytes of a 64-bit length. -/
def leBytes8 (n : ℕ) : List ℕ :=
  [n % 256, n / 256 % 256, n / 65536 % 256, n / 16777216 % 256,
   n / 4294967296 % 256, n / 1099511627776 % 256,
   n / 281474976710656 % 256, n / 72057594037927936 % 256]

/-- Little-endian bytes of a 32-bit word. -/
def leBytes4 (n : ℕ) : List ℕ :=
  [n % 256, n / 256 % 256, n / 65536 % 256, n / 16777216 % 256]

/-- MD5 padding: `0x80`, zeros to 56 mod 64, the bit length mod `2⁶⁴`
little-endian. -/
def md5Pad (msg : List ℕ) : List ℕ :=
  msg ++ [128] ++ List.replicate ((119 - msg.length % 64) % 64) 0
    ++ leBytes8 ((8 * msg.length) % 18446744073709551616)

/-- The 16-byte MD5 digest of a byte list. -/
def md5Bytes (msg : List ℕ) : List ℕ :=
  let padded := md5Pad msg
  let r := md5Blocks padded.length
    (1732584193, 4023233417, 2562383102, 271733878) padded
  leBytes4 r.1 ++ leBytes4 r.2.1 ++ leBytes4 r.2.2.1 ++ leBytes4 r.2.2.2

/-- Lowercase hex digit. -/
def hexDigit (n : ℕ) : Char :=
  if n < 10 then Char.ofNat (48 + n) else Char.ofNat (87 + n)

/-- Two lowercase hex digits of a byte. -/
def byteHex (b : ℕ) : List Char := [hexDigit (b / 16), hexDigit (b % 16)]

/-- Lowercase hex digest string, like `hashlib.md5(x).hexdigest()`. -/
def md5Hex (msg : List ℕ) : String :=
  String.mk ((md5Bytes msg).map byteHex).flatten

/-- UTF-8 bytes of an ASCII string: the codepoint list. -/
def strBytes (s : String) : List ℕ := s.data.map Char.toNat

/-- Hex MD5 of a string, like `hashlib.md5(x.encode()).hexdigest()`. -/
def md5HexStr (s : String) : String := md5Hex (strBytes s)

/-- State of `DigestAuth`: credentials plus the per-connection request
counter `nc`, zero at construction. -/
structure DigestAuth where
  username : String
  password : String
  nc : ℕ
deriving DecidableEq

/-- Python `DigestAuth(username, password)`. -/
def DigestAuth.init (username password : String) : DigestAuth :=
  { username := username, password := password, nc := 0 }

/-- Parsed challenge tokens with the source's `challenge.get` defaults. -/
structure Challenge where
  realm : String := ""
  nonce : String := ""
  qop : String := ""
  opaqueVal : String := ""
  algorithm : String := "MD5"
deriving DecidableEq

/-- Zero-padded 8-digit lowercase hex, the embedding of the format
expression the source applies to `nc` (whose value never reaches `16⁸`). -/
def toHex8 (n : ℕ) : String :=
  String.mk ((List.range 8).reverse.map (fun i => hexDigit (n / 16 ^ i % 16)))

/-- The RFC 2617 response hash as `_build_digest_header` computes it:
`HA1 = md5(user:realm:pass)`, `HA2 = md5(method:uri)`, and
`md5(HA1:nonce:HA2)` without qop or `md5(HA1:nonce:nc:cnonce:qop:HA2)` with
qop (the `if qop:` truthiness test is nonemptiness). -/
def digest_response (username password realm nonce qop method uri
    nc_value cnonce : String) : String :=
  let ha1 := md5HexStr (username ++ ":" ++ realm ++ ":" ++ password)
  let ha2 := md5HexStr (method ++ ":" ++ uri)
  if qop ≠ "" then
    md5HexStr (ha1 ++ ":" ++ nonce ++ ":" ++ nc_value ++ ":" ++ cnonce ++
      ":" ++ qop ++ ":" ++ ha2)
  else md5HexStr (ha1 ++ ":" ++ nonce ++ ":" ++ ha2)

/-- Python `_build_digest_header`, the random `cnonce` passed in: increment
`nc`, format it, compute the response hash, assemble the header.  Returns
the header and the successor state. -/
def DigestAuth.build_digest_header (d : DigestAuth) (method uri : String)
    (ch : Challenge) (cnonce : String) : String × DigestAuth :=
  let nc_value := toHex8 (d.nc + 1)
  let response_hash := digest_response d.username d.password ch.realm
    ch.nonce ch.qop method uri nc_value cnonce
  let header :=
    "Digest username=\"" ++ d.username ++ "\", realm=\"" ++ ch.realm ++
    "\", nonce=\"" ++ ch.nonce ++ "\", uri=\"" ++ uri ++
    "\", response=\"" ++ response_hash ++ "\"" ++
    (if ch.qop ≠ "" then
      ", qop=" ++ ch.qop ++ ", nc=" ++ nc_value ++ ", cnonce=\"" ++
        cnonce ++ "\""
     else "") ++
    (if ch.opaqueVal ≠ "" then ", opaque=\"" ++ ch.opaqueVal ++ "\""
     else "") ++
    (if ch.algorithm ≠ "" then ", algorithm=" ++ ch.algorithm else "")
  (header, { d with nc := d.nc + 1 })

set_option maxRecDepth 100000

/-- C5: the computed authorization response follows RFC 2617 —
`hash(HA1:nonce:HA2)` without qop and `hash(HA1:nonce:nc:cnonce:qop:HA2)`
with qop, `HA1 = hash(user:realm:pass)`, `HA2 = hash(method:uri)`, MD5 as
the hash; the per-connection counter starts at 0 so the first request uses
`nc = "00000001"` and every request increments it; and on the RFC 2617
reference vector (with the example's `nc` and `cnonce`) the response hash
equals the published value. -/
theorem C5_digest_rfc2617 (u p realm nonce qop method uri nc_value
    cnonce : String) (d : DigestAuth) (ch : Challenge) :
    (qop = "" →
      digest_response u p realm nonce qop method uri nc_value cnonce =
        md5HexStr (md5HexStr (u ++ ":" ++ realm ++ ":" ++ p) ++ ":" ++
          nonce ++ ":" ++ md5HexStr (method ++ ":" ++ uri)))
    ∧ (qop ≠ "" →
      digest_response u p realm nonce qop method uri nc_value cnonce =
        md5HexStr (md5HexStr (u ++ ":" ++ realm ++ ":" ++ p) ++ ":" ++
          nonce ++ ":" ++ nc_value ++ ":" ++ cnonce ++ ":" ++ qop ++ ":" ++
          md5HexStr (method ++ ":" ++ uri)))
    ∧ (DigestAuth.init u p).nc = 0
    ∧ (d.build_digest_header method uri ch cnonce).2.nc = d.nc + 1
    ∧ toHex8 ((DigestAuth.init u p).nc + 1) = "00000001"
    ∧ digest_response "Mufasa" "Circle Of Life" "testrealm@host.com"
        "dcd98b7102dd2f0e8b11d0f600bfb0c093" "auth" "GET" "/dir/index.html"
        "00000001" "0a4f113b" = "6629fae49393a05397450978507c4ef1" := by
  refine ⟨?_, ?_, rfl, rfl, ?_, by decide⟩
  case refine_3 =>
    show toHex8 (0 + 1) = "00000001"
    decide
  · intro h
    simp [digest_response, h]
  · intro h
    simp [digest_response, h]

/-- Witness for C5 at the RFC 2617 reference vector. -/
theorem C5_digest_rfc2617_witness :
    digest_response "Mufasa" "Circle Of Life" "testrealm@host.com"
      "dcd98b7102dd2f0e8b11d0f600bfb0c093" "auth" "GET" "/dir/index.html"
      "00000001" "0a4f113b" = "6629fae49393a05397450978507c4ef1" :=
  (C5_digest_rfc2617 "" "" "" "" "" "" "" "" ""
    (DigestAuth.init "" "") {}).2.2.2.2.2

end Seedeep
